import Mathlib

/-!
# Verification of the Outreach Orchestration Engine

A shallow embedding of the core of `scripts/startup_outreach.py`
(class `StartupOutreachBot`): the opt-out registry, the eligibility
filter and batch composer of `run_outreach_phase`, the dispatcher
`send_outreach_message`, the dispatch sessions (`send_batch_messages`,
`individual_review_session`, `send_all_pending`), and the discovery
merge of `run_discovery_phase`.

Modelling conventions:
* timestamps (Python ISO strings compared via `datetime`) are `Int`
  seconds; `datetime.now()` is an explicit `now` parameter and
  `timedelta(days = d)` is `d * 86400`;
* Python `str.lower()` is `strLower` (ASCII mapping over the char list);
* JSON dict entries of the outreach log are records whose fields are
  `Option`-valued: a key absent from the dict is `none`, and
  `dict.get(key, default)` is `Option.getD`;
* randomness (`random.randint`, `random.sample`), message rendering and
  the SMTP transport are oracle parameters: the transport outcome of a
  send attempt is `Option String` (`none` = delivered, `some e` = the
  raised transport error's message).
-/

/-- Python `str.lower()` on ASCII data: lowercase every character. -/
def strLower (s : String) : String := ⟨s.data.map Char.toLower⟩

/-- The `Contact` dataclass of `startup_outreach.py`. -/
structure Contact where
  name : String
  email : String
  organization : String
  role : String
  source : String
  category : String
  social_links : List String
  contact_date : Option Int := none
  response_received : Bool := false
  notes : String := ""
  outreach_count : Nat := 0
  last_contact : Option Int := none
deriving DecidableEq, Repr

/-- One element of the `opt_outs` array in `opt_outs.json`. -/
structure OptOutEntry where
  email : String
  reason : String
  timestamp : Int
  source : String
deriving DecidableEq, Repr

/-- The opt-out registry object (`opt_outs.json`): an `opt_outs` array
plus summary counters, as produced by `load_opt_outs`. -/
structure OptOuts where
  opt_outs : List OptOutEntry
  created : Int
  last_updated : Int
  total_opt_outs : Nat
deriving DecidableEq, Repr

/-- One JSON dict of the outreach log. Fields are `Option`-valued
because a dict may lack a key; `send_outreach_message` writes the keys
`timestamp`, `contact_name`, `contact_email`, `organization`,
`subject`, `template_used`, `status` and (on failure) `error` — it
never writes a key named `email`. -/
structure LogEntry where
  timestamp : Option Int := none
  contact_name : Option String := none
  contact_email : Option String := none
  organization : Option String := none
  subject : Option String := none
  template_used : Option String := none
  status : Option String := none
  error : Option String := none
  email : Option String := none
deriving DecidableEq, Repr

/-- The message dict produced by `generate_outreach_message`. -/
structure Msg where
  subject : String
  body : String
  template_used : String
deriving DecidableEq, Repr

/-- The `PendingOutreach` dataclass. -/
structure Pending where
  contact : Contact
  message : Msg
  timestamp : Int
  approved : Bool := false
  sent : Bool := false
deriving DecidableEq, Repr

/-- Embedding of `StartupOutreachBot.is_opted_out`: membership of the lowercased
email among the lowercased registry emails. -/
def is_opted_out (R : OptOuts) (email : String) : Bool :=
  (R.opt_outs.map (fun o => strLower o.email)).contains (strLower email)

/-- Embedding of `StartupOutreachBot.add_opt_out`: no-op returning `false` when the
email is already registered; otherwise append an entry holding the
lowercased email, refresh `last_updated`, and set `total_opt_outs` to
the length of the grown array, returning `true`. -/
def add_opt_out (R : OptOuts) (email reason source : String) (now : Int) :
    Bool × OptOuts :=
  if is_opted_out R email then (false, R)
  else
    let entry : OptOutEntry :=
      { email := strLower email, reason := reason, timestamp := now, source := source }
    let grown := R.opt_outs ++ [entry]
    (true, { R with opt_outs := grown, last_updated := now,
                    total_opt_outs := grown.length })

/-- The fixed `test_domains` denylist of `is_test_email`. -/
def testDomains : List String :=
  ["example.com", "example.org", "example.net",
   "test.com", "test.org", "test.net",
   "localhost", "127.0.0.1",
   "noreply.com", "no-reply.com",
   "fake.com", "dummy.com",
   "spam.com", "honeypot.com",
   "mailinator.com", "10minutemail.com",
   "tempmail.org", "guerrillamail.com"]

/-- Python `sep in s` / `s.split(sep)` for a one-character separator,
on the char list (structurally recursive, so kernel-reducible). -/
def splitOnChar (sep : Char) : List Char → List (List Char)
  | [] => [[]]
  | c :: rest =>
      match splitOnChar sep rest with
      | [] => if c = sep then [[], []] else [[c]]
      | h :: t => if c = sep then [] :: h :: t else (c :: h) :: t

/-- Python `email.split(sep)` as a list of strings. -/
def pySplit (s : String) (sep : Char) : List String :=
  (splitOnChar sep s.data).map String.mk

/-- Embedding of `StartupOutreachBot.is_test_email`: empty or `@`-less addresses are
test addresses; otherwise the lowercased part after the first `@`
(`email.split('@')[1].lower()`) is looked up in the fixed denylist. -/
def is_test_email (email : String) : Bool :=
  if email.data.isEmpty || !email.data.contains '@' then true
  else testDomains.contains (strLower ((pySplit email '@').getD 1 ""))

/-- Embedding of `StartupOutreachBot.get_domain_from_email`: `""` when there is no
`@`, else `email.split('@')[1].lower()`. -/
def get_domain_from_email (email : String) : String :=
  if !email.data.contains '@' then ""
  else strLower ((pySplit email '@').getD 1 "")

/-- One Python day (`timedelta(days=1)`) in seconds. -/
def day : Int := 86400

/-- Embedding of `StartupOutreachBot.has_recent_outreach_to_domain`: scan the log
for an entry with `status == 'sent'`, a present timestamp newer than
`now - days`, and whose `'email'` key (absent in entries written by
`send_outreach_message`, hence defaulting to `""`) has the given
domain. -/
def has_recent_outreach_to_domain (log : List LogEntry) (domain : String)
    (days : Int) (now : Int) : Bool :=
  log.any fun e =>
    match e.status, e.timestamp with
    | some st, some t =>
        st == "sent" && decide (now - days * day < t)
          && domain == get_domain_from_email (e.email.getD "")
    | _, _ => false

/-- Lines 1642–1647 of `run_outreach_phase`: a truthy `last_contact`
strictly within 30 days of `now`. -/
def recently_contacted (c : Contact) (now : Int) : Bool :=
  match c.last_contact with
  | none => false
  | some t => decide (now - t < 30 * day)

/-- The value `self.max_outreach_per_target` set in `__init__`. -/
def maxOutreachPerTarget : Nat := 4

/-- The value `self.min_outreach_per_target` set in `__init__`. -/
def minOutreachPerTarget : Nat := 2

/-- Accumulator of the eligibility loop of `run_outreach_phase`:
`eligible_contacts`, `seen_emails`, `seen_domains`. -/
structure EligState where
  acc : List Contact
  seenE : List String
  seenD : List String
deriving DecidableEq, Repr

/-- One iteration of the eligibility loop of `run_outreach_phase`
(lines 1626–1669): skip test addresses, opted-out addresses, emails or
domains already picked in this batch, recently contacted contacts,
contacts at the attempt cap, and domains with a recent successful
send; otherwise append the contact and claim its email and domain. -/
def eligStep (R : OptOuts) (log : List LogEntry) (now : Int)
    (st : EligState) (c : Contact) : EligState :=
  if is_test_email c.email then st
  else if is_opted_out R c.email then st
  else if st.seenE.contains (strLower c.email) then st
  else if recently_contacted c now then st
  else if maxOutreachPerTarget ≤ c.outreach_count then st
  else if st.seenD.contains (get_domain_from_email c.email) then st
  else if has_recent_outreach_to_domain log (get_domain_from_email c.email) 7 now then st
  else ⟨st.acc ++ [c], st.seenE ++ [strLower c.email],
        st.seenD ++ [get_domain_from_email c.email]⟩

/-- The eligibility filter of `run_outreach_phase`: the
`eligible_contacts` list after the full pass over `self.contacts`. -/
def selectEligible (contacts : List Contact) (R : OptOuts)
    (log : List LogEntry) (now : Int) : List Contact :=
  (contacts.foldl (eligStep R log now) ⟨[], [], []⟩).acc

/-- The `org_contacts` grouping of `run_outreach_phase`: a Python dict
keyed by `organization`, in insertion order, each key holding the
contacts with that organization in encounter order. -/
def groupByOrg (cs : List Contact) : List (String × List Contact) :=
  cs.foldl
    (fun acc c =>
      if acc.any (fun g => g.1 == c.organization) then
        acc.map (fun g => if g.1 == c.organization then (g.1, g.2 ++ [c]) else g)
      else acc ++ [(c.organization, [c])])
    []

/-- Accumulator of the message-generation loop of
`run_outreach_phase`: `new_pending`, `batch_emails`, `batch_domains`. -/
structure ComposeState where
  pending : List Pending
  batchE : List String
  batchD : List String
deriving DecidableEq, Repr

/-- Inner loop body over `selected_contacts` (lines 1702–1725):
re-check that neither the lowercased email nor the domain was already
claimed, render the message (`gen` returning `none` models the caught
per-contact generation exception), and stage a `PendingOutreach` with
`approved = false, sent = false`. -/
def composeSelectStep (gen : Contact → Option Msg) (now : Int)
    (st : ComposeState) (c : Contact) : ComposeState :=
  if st.batchE.contains (strLower c.email)
      || st.batchD.contains (get_domain_from_email c.email) then st
  else
    match gen c with
    | none => st
    | some m =>
        ⟨st.pending ++ [{ contact := c, message := m, timestamp := now }],
         st.batchE ++ [strLower c.email],
         st.batchD ++ [get_domain_from_email c.email]⟩

/-- Per-organization body of the generation loop (lines 1685–1698):
keep the contacts not yet claimed by email or domain, draw the batch
size (`random.randint`, oracle `pick`) capped by availability, sample
that many contacts (`random.sample`, oracle `sample`), and run the
inner loop on them. -/
def composeOrgStep (gen : Contact → Option Msg) (pick : String → Nat)
    (sample : String → List Contact → Nat → List Contact) (now : Int)
    (st : ComposeState) (g : String × List Contact) : ComposeState :=
  let available := g.2.filter fun c =>
    !st.batchE.contains (strLower c.email)
      && !st.batchD.contains (get_domain_from_email c.email)
  if available.isEmpty then st
  else
    let k := min available.length (pick g.1)
    (sample g.1 available k).foldl (composeSelectStep gen now) st

/-- The batch composer of `run_outreach_phase`: the `new_pending` list
produced by one invocation over the eligible contacts. -/
def composeBatch (gen : Contact → Option Msg) (pick : String → Nat)
    (sample : String → List Contact → Nat → List Contact) (now : Int)
    (eligible : List Contact) : List Pending :=
  ((groupByOrg eligible).foldl (composeOrgStep gen pick sample now)
    ⟨[], [], []⟩).pending

/-- Embedding of `run_outreach_phase` up to the interactive session: the eligible
set, the freshly composed `new_pending`, and the extended persisted
queue. -/
def run_outreach_phase (contacts : List Contact) (R : OptOuts)
    (log : List LogEntry) (queue : List Pending)
    (gen : Contact → Option Msg) (pick : String → Nat)
    (sample : String → List Contact → Nat → List Contact) (now : Int) :
    List Contact × List Pending × List Pending :=
  let eligible := selectEligible contacts R log now
  let newPending := composeBatch gen pick sample now eligible
  (eligible, newPending, queue ++ newPending)

/-- Result of `send_outreach_message`: the returned boolean, the
(possibly mutated) contact, and the (possibly extended) outreach log. -/
structure SendResult where
  ok : Bool
  contact : Contact
  log : List LogEntry
deriving DecidableEq, Repr

/-- Embedding of `StartupOutreachBot.send_outreach_message`. Order of the Python
checks: opted-out refusal (return `false`, nothing logged, nothing
mutated); dry-run (return `true`, nothing logged); missing email
config (return `false`, nothing logged); then the transport. On
delivery: stamp `contact_date`/`last_contact` with `now`, increment
`outreach_count`, and append a `status='sent'` log entry. On a
transport error `e`: append a `status='failed'` entry carrying `e`
and leave the contact untouched. -/
def send_outreach_message (R : OptOuts) (log : List LogEntry)
    (c : Contact) (m : Msg) (dry_run : Bool) (hasEmailConfig : Bool)
    (transportError : Option String) (now : Int) : SendResult :=
  if is_opted_out R c.email then ⟨false, c, log⟩
  else if dry_run then ⟨true, c, log⟩
  else if !hasEmailConfig then ⟨false, c, log⟩
  else
    match transportError with
    | none =>
        ⟨true,
         { c with contact_date := some now,
                  outreach_count := c.outreach_count + 1,
                  last_contact := some now },
         log ++ [{ timestamp := some now, contact_name := some c.name,
                   contact_email := some c.email,
                   organization := some c.organization,
                   subject := some m.subject,
                   template_used := some m.template_used,
                   status := some "sent" }]⟩
    | some e =>
        ⟨false, c,
         log ++ [{ timestamp := some now, contact_name := some c.name,
                   contact_email := some c.email,
                   organization := some c.organization,
                   subject := some m.subject,
                   template_used := some m.template_used,
                   status := some "failed", error := some e }]⟩

/-- Result of a dispatch session over the queue: the updated queue,
the updated outreach log, the entries for which
`send_outreach_message` was invoked (delivery attempts, in order), and
the updated queue entries whose send returned `true`. -/
structure DispatchResult where
  queue : List Pending
  log : List LogEntry
  attempted : List Pending
  okSent : List Pending
deriving DecidableEq, Repr

/-- Embedding of `StartupOutreachBot.send_batch_messages` (lines 1237–1247):
entries with `sent = true` are skipped; otherwise the message is
dispatched and, on success, the entry is marked
`sent = true, approved = true` in place. `tr k` is the transport
outcome of the k-th send attempt of the session. -/
def sendBatchGo (R : OptOuts) (cfg : Bool) (now : Int)
    (tr : Nat → Option String) :
    List Pending → List LogEntry → Nat → DispatchResult
  | [], log, _ => ⟨[], log, [], []⟩
  | p :: rest, log, k =>
    if p.sent then
      let r := sendBatchGo R cfg now tr rest log k
      ⟨p :: r.queue, r.log, r.attempted, r.okSent⟩
    else
      let s := send_outreach_message R log p.contact p.message false cfg (tr k) now
      if s.ok then
        let p' := { p with contact := s.contact, sent := true, approved := true }
        let r := sendBatchGo R cfg now tr rest s.log (k + 1)
        ⟨p' :: r.queue, r.log, p :: r.attempted, p' :: r.okSent⟩
      else
        let p' := { p with contact := s.contact }
        let r := sendBatchGo R cfg now tr rest s.log (k + 1)
        ⟨p' :: r.queue, r.log, p :: r.attempted, r.okSent⟩

/-- Entry point of `send_batch_messages` over a queue. -/
def send_batch_messages (R : OptOuts) (cfg : Bool) (now : Int)
    (tr : Nat → Option String) (queue : List Pending)
    (log : List LogEntry) : DispatchResult :=
  sendBatchGo R cfg now tr queue log 0

/-- Operator decision returned by `preview_message_cli` in
`individual_review_session`; for `edit`, the replacement message and
whether the second preview answers `send`. -/
inductive Decision where
  | dsend
  | dedit (m : Msg) (thenSend : Bool)
  | dskip
  | dquit
deriving DecidableEq, Repr

/-- Embedding of `StartupOutreachBot.individual_review_session` (lines 1301–1355):
entries with `sent` or `approved` are skipped without a prompt; `dec j`
is the decision for the j-th presented entry. A send marks the entry
`sent = true, approved = true` on success; an edit replaces the
message in place and sends only if the second preview says so; quit
stops the loop, leaving the remaining entries untouched. -/
def individualReviewGo (R : OptOuts) (cfg : Bool) (now : Int)
    (tr : Nat → Option String) (dec : Nat → Decision) :
    List Pending → List LogEntry → Nat → Nat → DispatchResult
  | [], log, _, _ => ⟨[], log, [], []⟩
  | p :: rest, log, k, j =>
    if p.sent || p.approved then
      let r := individualReviewGo R cfg now tr dec rest log k j
      ⟨p :: r.queue, r.log, r.attempted, r.okSent⟩
    else
      match dec j with
      | .dsend =>
          let s := send_outreach_message R log p.contact p.message false cfg (tr k) now
          if s.ok then
            let p' := { p with contact := s.contact, sent := true, approved := true }
            let r := individualReviewGo R cfg now tr dec rest s.log (k + 1) (j + 1)
            ⟨p' :: r.queue, r.log, p :: r.attempted, p' :: r.okSent⟩
          else
            let p' := { p with contact := s.contact }
            let r := individualReviewGo R cfg now tr dec rest s.log (k + 1) (j + 1)
            ⟨p' :: r.queue, r.log, p :: r.attempted, r.okSent⟩
      | .dedit m thenSend =>
          let p1 := { p with message := m }
          if thenSend then
            let s := send_outreach_message R log p1.contact p1.message false cfg (tr k) now
            if s.ok then
              let p' := { p1 with contact := s.contact, sent := true, approved := true }
              let r := individualReviewGo R cfg now tr dec rest s.log (k + 1) (j + 1)
              ⟨p' :: r.queue, r.log, p1 :: r.attempted, p' :: r.okSent⟩
            else
              let p' := { p1 with contact := s.contact }
              let r := individualReviewGo R cfg now tr dec rest s.log (k + 1) (j + 1)
              ⟨p' :: r.queue, r.log, p1 :: r.attempted, r.okSent⟩
          else
            let r := individualReviewGo R cfg now tr dec rest log k (j + 1)
            ⟨p1 :: r.queue, r.log, r.attempted, r.okSent⟩
      | .dskip =>
          let r := individualReviewGo R cfg now tr dec rest log k (j + 1)
          ⟨p :: r.queue, r.log, r.attempted, r.okSent⟩
      | .dquit => ⟨p :: rest, log, [], []⟩

/-- Entry point of `individual_review_session` over a queue. -/
def individual_review_session (R : OptOuts) (cfg : Bool) (now : Int)
    (tr : Nat → Option String) (dec : Nat → Decision)
    (queue : List Pending) (log : List LogEntry) : DispatchResult :=
  individualReviewGo R cfg now tr dec queue log 0 0

/-- Embedding of `StartupOutreachBot.send_all_pending` (lines 1740–1768): iterate
over a copy of the whole queue — with no check of the `sent` flag —
send each entry, and **remove** from the queue every entry whose send
returned `true`; failed entries stay. -/
def sendAllGo (R : OptOuts) (cfg : Bool) (now : Int)
    (tr : Nat → Option String) :
    List Pending → List LogEntry → Nat → DispatchResult
  | [], log, _ => ⟨[], log, [], []⟩
  | p :: rest, log, k =>
    let s := send_outreach_message R log p.contact p.message false cfg (tr k) now
    let r := sendAllGo R cfg now tr rest s.log (k + 1)
    if s.ok then ⟨r.queue, r.log, p :: r.attempted, p :: r.okSent⟩
    else ⟨p :: r.queue, r.log, p :: r.attempted, r.okSent⟩

/-- Entry point of `send_all_pending` over a queue. -/
def send_all_pending (R : OptOuts) (cfg : Bool) (now : Int)
    (tr : Nat → Option String) (queue : List Pending)
    (log : List LogEntry) : DispatchResult :=
  sendAllGo R cfg now tr queue log 0

/-- The merge step of `run_discovery_phase` (lines 1532–1536), folded
over the per-target candidate lists returned by the scraper: for each
target, `existing_emails` is the set of the **exact** (not lowercased)
emails currently in the store, and the candidates whose email is not
in it are appended. -/
def run_discovery_merge (store : List Contact)
    (scraped : List (List Contact)) : List Contact :=
  scraped.foldl
    (fun cur cands =>
      cur ++ cands.filter fun c => !(cur.map (fun x => x.email)).contains c.email)
    store

theorem charOfNat_toNat (n : Nat) (h : n.isValidChar) :
    (Char.ofNat n).toNat = n := by
  rw [Char.ofNat, dif_pos h]
  simp [Char.ofNatAux, Char.toNat, UInt32.toNat, BitVec.toNat_ofNatLt]

theorem charToLower_idem (c : Char) : c.toLower.toLower = c.toLower := by
  unfold Char.toLower
  by_cases h : c.toNat ≥ 65 ∧ c.toNat ≤ 90
  · rw [if_pos h]
    have hv : (c.toNat + 32).isValidChar := Or.inl (by omega)
    have ht : (Char.ofNat (c.toNat + 32)).toNat = c.toNat + 32 :=
      charOfNat_toNat _ hv
    rw [if_neg]
    rw [ht]
    omega
  · rw [if_neg h, if_neg h]

theorem mapLower_idem (l : List Char) :
    (l.map Char.toLower).map Char.toLower = l.map Char.toLower := by
  induction l with
  | nil => rfl
  | cons a l ih => simp [ih, charToLower_idem]

theorem strLower_idem (s : String) : strLower (strLower s) = strLower s := by
  show String.mk ((s.data.map Char.toLower).map Char.toLower) = _
  exact congrArg String.mk (mapLower_idem s.data)

/-- The per-contact eligibility conditions that do not depend on the
running `seen_emails`/`seen_domains` state. -/
def eligFree (R : OptOuts) (log : List LogEntry) (now : Int) (c : Contact) : Prop :=
  is_test_email c.email = false ∧ is_opted_out R c.email = false ∧
  recently_contacted c now = false ∧ c.outreach_count < maxOutreachPerTarget ∧
  has_recent_outreach_to_domain log (get_domain_from_email c.email) 7 now = false

theorem eligStep_mem (R : OptOuts) (log : List LogEntry) (now : Int)
    (st : EligState) (c x : Contact)
    (hx : x ∈ (eligStep R log now st c).acc) :
    x ∈ st.acc ∨ (x = c ∧ eligFree R log now c) := by
  unfold eligStep at hx
  repeat' split at hx
  · exact Or.inl hx
  · exact Or.inl hx
  · exact Or.inl hx
  · exact Or.inl hx
  · exact Or.inl hx
  · exact Or.inl hx
  · exact Or.inl hx
  rename_i h1 h2 h3 h4 h5 h6 h7
  have hx' : x ∈ st.acc ++ [c] := hx
  rcases List.mem_append.mp hx' with h | h
  · exact Or.inl h
  · have hc : x = c := List.mem_singleton.mp h
    refine Or.inr ⟨hc, ?_, ?_, ?_, ?_, ?_⟩
    · exact Bool.eq_false_iff.mpr h1
    · exact Bool.eq_false_iff.mpr h2
    · exact Bool.eq_false_iff.mpr h4
    · omega
    · exact Bool.eq_false_iff.mpr h7

theorem eligFold_mem (R : OptOuts) (log : List LogEntry) (now : Int)
    (cs : List Contact) (st : EligState) (x : Contact)
    (hx : x ∈ (cs.foldl (eligStep R log now) st).acc) :
    x ∈ st.acc ∨ eligFree R log now x := by
  induction cs generalizing st with
  | nil => exact Or.inl hx
  | cons c cs ih =>
    simp only [List.foldl_cons] at hx
    rcases ih _ hx with h | h
    · rcases eligStep_mem R log now st c x h with h' | ⟨rfl, h'⟩
      · exact Or.inl h'
      · exact Or.inr h'
    · exact Or.inr h

theorem selectEligible_mem (contacts : List Contact) (R : OptOuts)
    (log : List LogEntry) (now : Int) (x : Contact)
    (hx : x ∈ selectEligible contacts R log now) : eligFree R log now x := by
  rcases eligFold_mem R log now contacts ⟨[], [], []⟩ x hx with h | h
  · simp at h
  · exact h

theorem is_opted_out_iff (R : OptOuts) (e : String) :
    is_opted_out R e = true ↔
      ∃ o ∈ R.opt_outs, strLower o.email = strLower e := by
  simp [is_opted_out, List.elem_iff, List.mem_map]

/-- Concrete fixture: a clean contact at a fresh domain. -/
def cAda : Contact :=
  { name := "Ada", email := "x@y.COM", organization := "Acme", role := "CEO",
    source := "s", category := "publication", social_links := [] }

/-- Concrete fixture: a registry suppressing `x@y.com` (mixed case). -/
def Rxy : OptOuts :=
  { opt_outs := [{ email := "X@Y.com", reason := "spam", timestamp := 0,
                   source := "manual" }],
    created := 0, last_updated := 0, total_opt_outs := 1 }

/-- Concrete fixture: an empty registry. -/
def Rempty : OptOuts :=
  { opt_outs := [], created := 0, last_updated := 0, total_opt_outs := 0 }

/-- Concrete fixture message. -/
def mHello : Msg := { subject := "Hello", body := "Hi", template_used := "t1" }

/-- C1: an email present in the opt-out registry (matched
case-insensitively) is excluded from the eligible set by
`run_outreach_phase`'s filter, and `send_outreach_message` for such a
contact returns `false` while leaving the contact and the outreach log
untouched. -/
theorem opt_out_supremacy (R : OptOuts) (contacts : List Contact)
    (log log2 : List LogEntry) (now now2 : Int) (c : Contact) (m : Msg)
    (dr cfg : Bool) (tre : Option String)
    (h : ∃ o ∈ R.opt_outs, strLower o.email = strLower c.email) :
    c ∉ selectEligible contacts R log now ∧
    send_outreach_message R log2 c m dr cfg tre now2 = ⟨false, c, log2⟩ := by
  have hopt : is_opted_out R c.email = true := (is_opted_out_iff R c.email).mpr h
  constructor
  · intro hmem
    have hfree := selectEligible_mem contacts R log now c hmem
    rw [hfree.2.1] at hopt
    exact Bool.false_ne_true hopt
  · unfold send_outreach_message
    rw [if_pos hopt]

/-- Witness for C1 at a concrete registry and contact. -/
theorem opt_out_supremacy_witness :
    cAda ∉ selectEligible [cAda] Rxy [] 0 ∧
    send_outreach_message Rxy [] cAda mHello false true none 0 =
      ⟨false, cAda, []⟩ :=
  opt_out_supremacy Rxy [cAda] [] [] 0 0 cAda mHello false true none (by decide)

/-- C8: the eligible set never contains a contact whose `last_contact`
is within 30 days of `now`, and a contact with null `last_contact` is
not excluded by the cooldown rule (it is selected whenever the other,
state-independent rules pass). -/
theorem cooldown_invariant (contacts : List Contact) (R : OptOuts)
    (log : List LogEntry) (now : Int) :
    (∀ c ∈ selectEligible contacts R log now,
      ∀ t, c.last_contact = some t → ¬(now - t < 30 * day)) ∧
    (∀ c : Contact, c.last_contact = none →
      is_test_email c.email = false → is_opted_out R c.email = false →
      c.outreach_count < maxOutreachPerTarget →
      has_recent_outreach_to_domain log (get_domain_from_email c.email) 7 now = false →
      selectEligible [c] R log now = [c]) := by
  constructor
  · intro c hc t ht
    have hfree := selectEligible_mem contacts R log now c hc
    have hrec := hfree.2.2.1
    rw [recently_contacted, ht] at hrec
    exact of_decide_eq_false hrec
  · intro c hnone htest hopt hcount hdom
    have h5 : ¬ (maxOutreachPerTarget ≤ c.outreach_count) := Nat.not_le.mpr hcount
    simp [selectEligible, eligStep, htest, hopt, recently_contacted, hnone, h5, hdom]

/-- Witness for C8: a never-contacted clean contact is selected. -/
theorem cooldown_invariant_witness :
    selectEligible [cAda] Rempty [] 0 = [cAda] :=
  (cooldown_invariant [cAda] Rempty [] 0).2 cAda (by decide) (by decide)
    (by decide) (by decide) (by decide)

/-- Concrete fixture: a `status='sent'` log entry written by
`send_outreach_message` one day before `now = 864000` to
`press@acme.com` — note it carries the key `contact_email`, not
`email`. -/
def logAcme : LogEntry :=
  { timestamp := some 777600, contact_name := some "P",
    contact_email := some "press@acme.com", organization := some "Acme",
    subject := some "s", template_used := some "t1", status := some "sent" }

/-- Concrete fixture: a contact at the already-contacted domain. -/
def cCEO : Contact :=
  { name := "Eve", email := "ceo@acme.com", organization := "Acme",
    role := "CEO", source := "s", category := "publication",
    social_links := [] }

/-- C2 (code bug): the outreach log holds a successful send to
`acme.com` one day ago (within the 7-day window), yet
`has_recent_outreach_to_domain` answers `false` — it reads the absent
dict key `email` instead of `contact_email` — so a contact at
`acme.com` stays in the eligible set. -/
theorem recent_domain_not_excluded :
    logAcme.status = some "sent" ∧
    get_domain_from_email ((logAcme.contact_email).getD "") = "acme.com" ∧
    (864000 : Int) - 7 * day < 777600 ∧
    get_domain_from_email cCEO.email = "acme.com" ∧
    has_recent_outreach_to_domain [logAcme] "acme.com" 7 864000 = false ∧
    selectEligible [cCEO] Rempty [logAcme] 864000 = [cCEO] := by decide

/-- C9: `add_opt_out` is a no-op returning `false` on an already
registered email (in any case), registers the lowercased email
returning `true` otherwise, and a second call with the same email
always returns `false`. -/
theorem add_opt_out_idempotent (R : OptOuts)
    (e reason source reason2 source2 : String) (now now2 : Int) :
    (is_opted_out R e = true → add_opt_out R e reason source now = (false, R)) ∧
    (is_opted_out R e = false →
      (add_opt_out R e reason source now).1 = true ∧
      (add_opt_out R e reason source now).2.opt_outs =
        R.opt_outs ++ [{ email := strLower e, reason := reason,
                         timestamp := now, source := source }]) ∧
    (add_opt_out (add_opt_out R e reason source now).2 e reason2 source2 now2).1 =
      false := by
  refine ⟨?_, ?_, ?_⟩
  · intro h
    simp [add_opt_out, h]
  · intro h
    simp [add_opt_out, h]
  · by_cases h : is_opted_out R e
    · simp [add_opt_out, h]
    · have h2 : is_opted_out (add_opt_out R e reason source now).2 e = true := by
        simp only [add_opt_out, if_neg h]
        simp only [is_opted_out, List.elem_iff, List.mem_map]
        exact ⟨{ email := strLower e, reason := reason, timestamp := now,
                 source := source },
               List.mem_append.mpr (Or.inr (List.mem_singleton.mpr rfl)),
               strLower_idem e⟩
      generalize hR : (add_opt_out R e reason source now).2 = R2 at h2 ⊢
      simp [add_opt_out, h2]

/-- Witness for C9: re-registering `x@y.com` is refused; a fresh
registration succeeds and its immediate repetition returns `false`. -/
theorem add_opt_out_idempotent_witness :
    add_opt_out Rxy "x@Y.com" "r" "manual" 5 = (false, Rxy) ∧
    (add_opt_out Rempty "A@B.com" "r" "manual" 0).1 = true ∧
    (add_opt_out (add_opt_out Rempty "A@B.com" "r" "manual" 0).2
        "A@B.com" "r2" "web" 1).1 = false :=
  ⟨(add_opt_out_idempotent Rxy "x@Y.com" "r" "manual" "r" "manual" 5 1).1
      (by decide),
   ((add_opt_out_idempotent Rempty "A@B.com" "r" "manual" "r2" "web" 0 1).2.1
      (by decide)).1,
   (add_opt_out_idempotent Rempty "A@B.com" "r" "manual" "r2" "web" 0 1).2.2⟩

/-- C10: a successful `add_opt_out` keeps `total_opt_outs` equal to
the length of the `opt_outs` array. -/
theorem total_opt_outs_consistent (R : OptOuts) (e reason source : String)
    (now : Int) (hs : (add_opt_out R e reason source now).1 = true)
    (_hc : R.total_opt_outs = R.opt_outs.length) :
    (add_opt_out R e reason source now).2.total_opt_outs =
      (add_opt_out R e reason source now).2.opt_outs.length := by
  by_cases h : is_opted_out R e
  · simp [add_opt_out, h] at hs
  · simp [add_opt_out, h]

/-- Witness for C10 on the empty registry. -/
theorem total_opt_outs_consistent_witness :
    (add_opt_out Rempty "A@B.com" "r" "manual" 0).2.total_opt_outs =
      (add_opt_out Rempty "A@B.com" "r" "manual" 0).2.opt_outs.length :=
  total_opt_outs_consistent Rempty "A@B.com" "r" "manual" 0 (by decide)
    (by decide)

/-- C6: a transport-level error for a non-opted-out contact appends
exactly one `status='failed'` log entry carrying the error message,
returns `false`, and leaves the contact record untouched. -/
theorem failed_send_appends_failure (R : OptOuts) (log : List LogEntry)
    (c : Contact) (m : Msg) (now : Int) (e : String)
    (hopt : is_opted_out R c.email = false) :
    send_outreach_message R log c m false true (some e) now =
      ⟨false, c,
       log ++ [{ timestamp := some now, contact_name := some c.name,
                 contact_email := some c.email,
                 organization := some c.organization,
                 subject := some m.subject,
                 template_used := some m.template_used,
                 status := some "failed", error := some e }]⟩ := by
  simp [send_outreach_message, hopt]

/-- Witness for C6: a concrete failing send. -/
theorem failed_send_appends_failure_witness :
    send_outreach_message Rempty [] cAda mHello false true (some "boom") 3 =
      ⟨false, cAda,
       [{ timestamp := some 3, contact_name := some "Ada",
          contact_email := some "x@y.COM", organization := some "Acme",
          subject := some "Hello", template_used := some "t1",
          status := some "failed", error := some "boom" }]⟩ :=
  failed_send_appends_failure Rempty [] cAda mHello 3 "boom" (by decide)

/-- No two staged entries share a lowercased email or an email
domain. -/
def pendingDistinct (l : List Pending) : Prop :=
  l.Pairwise fun a b =>
    strLower a.contact.email ≠ strLower b.contact.email ∧
    get_domain_from_email a.contact.email ≠ get_domain_from_email b.contact.email

/-- Invariant of the generation loop: every staged entry has claimed
its email and domain, and the staged entries are pairwise distinct in
both. -/
def composeInv (st : ComposeState) : Prop :=
  (∀ p ∈ st.pending,
    strLower p.contact.email ∈ st.batchE ∧
    get_domain_from_email p.contact.email ∈ st.batchD) ∧
  pendingDistinct st.pending

theorem composeSelectStep_inv (gen : Contact → Option Msg) (now : Int)
    (st : ComposeState) (c : Contact) (h : composeInv st) :
    composeInv (composeSelectStep gen now st c) := by
  unfold composeSelectStep
  by_cases hg : (st.batchE.contains (strLower c.email)
      || st.batchD.contains (get_domain_from_email c.email)) = true
  · rw [if_pos hg]
    exact h
  · rw [if_neg hg]
    cases hgen : gen c with
    | none => exact h
    | some m =>
      have hE : strLower c.email ∉ st.batchE := by
        intro hmem
        apply hg
        have h1 : st.batchE.contains (strLower c.email) = true :=
          List.elem_iff.mpr hmem
        rw [h1, Bool.true_or]
      have hD : get_domain_from_email c.email ∉ st.batchD := by
        intro hmem
        apply hg
        have h1 : st.batchD.contains (get_domain_from_email c.email) = true :=
          List.elem_iff.mpr hmem
        rw [h1, Bool.or_true]
      obtain ⟨hmem, hpw⟩ := h
      constructor
      · intro p hp
        rcases List.mem_append.mp hp with hp | hp
        · obtain ⟨h1, h2⟩ := hmem p hp
          exact ⟨List.mem_append.mpr (Or.inl h1),
                 List.mem_append.mpr (Or.inl h2)⟩
        · rw [List.mem_singleton.mp hp]
          exact ⟨List.mem_append.mpr (Or.inr (by simp)),
                 List.mem_append.mpr (Or.inr (by simp))⟩
      · refine List.pairwise_append.mpr ⟨hpw, List.pairwise_singleton _ _, ?_⟩
        intro a ha b hb
        rw [List.mem_singleton.mp hb]
        obtain ⟨h1, h2⟩ := hmem a ha
        constructor
        · intro heq
          exact hE (heq ▸ h1)
        · intro heq
          exact hD (heq ▸ h2)

theorem composeSelectFold_inv (gen : Contact → Option Msg) (now : Int)
    (cs : List Contact) (st : ComposeState) (h : composeInv st) :
    composeInv (cs.foldl (composeSelectStep gen now) st) := by
  induction cs generalizing st with
  | nil => exact h
  | cons c cs ih => exact ih _ (composeSelectStep_inv gen now st c h)

theorem composeOrgStep_inv (gen : Contact → Option Msg) (pick : String → Nat)
    (sample : String → List Contact → Nat → List Contact) (now : Int)
    (st : ComposeState) (g : String × List Contact) (h : composeInv st) :
    composeInv (composeOrgStep gen pick sample now st g) := by
  simp only [composeOrgStep]
  split
  · exact h
  · exact composeSelectFold_inv gen now _ st h

/-- C7: the `new_pending` entries produced by one batch-composition
invocation of `run_outreach_phase` never repeat a lowercased email or
an email domain, whatever the randomized per-organization counts and
samples do. -/
theorem composeOrgFold_inv (gen : Contact → Option Msg) (pick : String → Nat)
    (sample : String → List Contact → Nat → List Contact) (now : Int)
    (gs : List (String × List Contact)) (st : ComposeState)
    (h : composeInv st) :
    composeInv (gs.foldl (composeOrgStep gen pick sample now) st) := by
  induction gs generalizing st with
  | nil => exact h
  | cons g gs ih => exact ih _ (composeOrgStep_inv gen pick sample now st g h)

/-- C7: the `new_pending` entries produced by one batch-composition
invocation of `run_outreach_phase` never repeat a lowercased email or
an email domain, whatever the randomized per-organization counts and
samples do. -/
theorem domain_throttle_invariant (gen : Contact → Option Msg)
    (pick : String → Nat) (sample : String → List Contact → Nat → List Contact)
    (now : Int) (eligible : List Contact) :
    pendingDistinct (composeBatch gen pick sample now eligible) := by
  have h0 : composeInv ⟨[], [], []⟩ := by
    constructor
    · intro p hp
      simp at hp
    · exact List.Pairwise.nil
  exact (composeOrgFold_inv gen pick sample now (groupByOrg eligible)
    ⟨[], [], []⟩ h0).2

/-- Concrete fixture: a stored contact with a mixed-case email. -/
def cUpper : Contact :=
  { name := "U", email := "A@x.com", organization := "O1", role := "r",
    source := "s", category := "publication", social_links := [] }

/-- Concrete fixture: a scraped candidate carrying the same email
lowercased (as `extract_contacts_from_page` emits it). -/
def cLowerDup : Contact :=
  { name := "L", email := "a@x.com", organization := "O2", role := "r",
    source := "s", category := "publication", social_links := [] }

/-- Counterexample to C5: the merge of `run_discovery_phase` compares
emails exactly, not case-insensitively, so a store holding `A@x.com`
(which satisfies the dedup invariant) absorbs the scraped candidate
`a@x.com` and ends up with two distinct records sharing a lowercased
email. -/
theorem discovery_dedup_counterexample :
    [cUpper].Pairwise (fun a b => strLower a.email ≠ strLower b.email) ∧
    run_discovery_merge [cUpper] [[cLowerDup]] = [cUpper, cLowerDup] ∧
    cUpper ≠ cLowerDup ∧
    strLower cUpper.email = strLower cLowerDup.email ∧
    ¬ (run_discovery_merge [cUpper] [[cLowerDup]]).Pairwise
        (fun a b => strLower a.email ≠ strLower b.email) := by decide

/-- C5 as amended: the merge drops candidates whose email *exactly*
matches a stored one. When every stored email is lowercase, and every
scraped candidate list has lowercase, internally distinct emails (as
`extract_contacts_from_page` and `scrape_contacts_from_target`
guarantee), the dedup invariant is preserved. -/
theorem discovery_dedup_amended (store : List Contact)
    (scraped : List (List Contact))
    (h1 : store.Pairwise (fun a b => a.email ≠ b.email))
    (h2 : ∀ c ∈ store, strLower c.email = c.email)
    (h3 : ∀ l ∈ scraped, (∀ c ∈ l, strLower c.email = c.email) ∧
          l.Pairwise (fun a b => a.email ≠ b.email)) :
    (run_discovery_merge store scraped).Pairwise
      (fun a b => strLower a.email ≠ strLower b.email) := by
  have key : ∀ (sc : List (List Contact)) (st : List Contact),
      st.Pairwise (fun a b => a.email ≠ b.email) →
      (∀ c ∈ st, strLower c.email = c.email) →
      (∀ l ∈ sc, (∀ c ∈ l, strLower c.email = c.email) ∧
        l.Pairwise (fun a b => a.email ≠ b.email)) →
      (run_discovery_merge st sc).Pairwise (fun a b => a.email ≠ b.email) ∧
      (∀ c ∈ run_discovery_merge st sc, strLower c.email = c.email) := by
    intro sc
    induction sc with
    | nil => exact fun st hp hl _ => ⟨hp, hl⟩
    | cons l sc ih =>
      intro st hp hl hsc
      have hstep : (st ++ l.filter fun c =>
          !(st.map (fun x => x.email)).contains c.email).Pairwise
            (fun a b => a.email ≠ b.email) := by
        refine List.pairwise_append.mpr ⟨hp, ?_, ?_⟩
        · exact (hsc l (List.mem_cons_self l sc)).2.filter _
        · intro a ha b hb
          obtain ⟨hbl, hbc⟩ := List.mem_filter.mp hb
          intro heq
          have hmm : b.email ∈ st.map (fun x => x.email) :=
            List.mem_map.mpr ⟨a, ha, heq⟩
          have hb2 : (st.map (fun x => x.email)).contains b.email = true :=
            List.elem_iff.mpr hmm
          rw [hb2] at hbc
          simp at hbc
      have hlow : ∀ c ∈ (st ++ l.filter fun c =>
          !(st.map (fun x => x.email)).contains c.email),
          strLower c.email = c.email := by
        intro c hc
        rcases List.mem_append.mp hc with hc | hc
        · exact hl c hc
        · exact (hsc l (List.mem_cons_self l sc)).1 c (List.mem_filter.mp hc).1
      have := ih _ hstep hlow (fun l' hl' => hsc l' (List.mem_cons_of_mem l hl'))
      simpa [run_discovery_merge] using this
  obtain ⟨hpair, hlow⟩ := key scraped store h1 h2 h3
  refine hpair.imp_of_mem ?_
  intro a b ha hb hne
  rw [hlow a ha, hlow b hb]
  exact hne

/-- Witness for the amended C5: merging a fresh lowercase candidate
into a lowercase store keeps lowercased emails pairwise distinct. -/
theorem discovery_dedup_amended_witness :
    (run_discovery_merge [cLowerDup] [[cCEO]]).Pairwise
      (fun a b => strLower a.email ≠ strLower b.email) :=
  discovery_dedup_amended [cLowerDup] [[cCEO]] (by decide) (by decide)
    (by decide)

/-- Queue soundness of a dispatch session: no entry is deleted, every
successfully sent entry is present and marked
`sent = true, approved = true`, and `sent` implies `approved`
throughout. -/
def auditOk (queue : List Pending) (r : DispatchResult) : Prop :=
  r.queue.length = queue.length ∧
  (∀ p ∈ r.okSent, p ∈ r.queue ∧ p.sent = true ∧ p.approved = true) ∧
  (∀ p ∈ r.queue, p.sent = true → p.approved = true)

theorem auditOk_keep (p x : Pending) (rest : List Pending)
    (r : DispatchResult) (l : List LogEntry) (att : List Pending)
    (hx : x.sent = true → x.approved = true) (h : auditOk rest r) :
    auditOk (p :: rest) ⟨x :: r.queue, l, att, r.okSent⟩ := by
  obtain ⟨h1, h2, h3⟩ := h
  refine ⟨by simp [h1], ?_, ?_⟩
  · intro q hq
    obtain ⟨hq1, hq2, hq3⟩ := h2 q hq
    exact ⟨List.mem_cons_of_mem x hq1, hq2, hq3⟩
  · intro q hq
    rcases List.mem_cons.mp hq with rfl | hq
    · exact hx
    · exact h3 q hq

theorem auditOk_mark (p x : Pending) (rest : List Pending)
    (r : DispatchResult) (l : List LogEntry) (att : List Pending)
    (hx1 : x.sent = true) (hx2 : x.approved = true) (h : auditOk rest r) :
    auditOk (p :: rest) ⟨x :: r.queue, l, att, x :: r.okSent⟩ := by
  obtain ⟨h1, h2, h3⟩ := h
  refine ⟨by simp [h1], ?_, ?_⟩
  · intro q hq
    rcases List.mem_cons.mp hq with rfl | hq
    · exact ⟨List.mem_cons_self _ _, hx1, hx2⟩
    · obtain ⟨hq1, hq2, hq3⟩ := h2 q hq
      exact ⟨List.mem_cons_of_mem x hq1, hq2, hq3⟩
  · intro q hq
    rcases List.mem_cons.mp hq with rfl | hq
    · intro _
      exact hx2
    · exact h3 q hq

theorem sendBatchGo_audit (R : OptOuts) (cfg : Bool) (now : Int)
    (tr : Nat → Option String) (queue : List Pending) :
    ∀ (log : List LogEntry) (k : Nat),
      (∀ p ∈ queue, p.sent = true → p.approved = true) →
      auditOk queue (sendBatchGo R cfg now tr queue log k) := by
  induction queue with
  | nil =>
    intro log k _
    exact ⟨rfl, by simp [sendBatchGo], by simp [sendBatchGo]⟩
  | cons p rest ih =>
    intro log k hinv
    have hrest : ∀ q ∈ rest, q.sent = true → q.approved = true :=
      fun q hq => hinv q (List.mem_cons_of_mem p hq)
    by_cases hsent : p.sent = true
    · have heq : sendBatchGo R cfg now tr (p :: rest) log k =
        ⟨p :: (sendBatchGo R cfg now tr rest log k).queue,
         (sendBatchGo R cfg now tr rest log k).log,
         (sendBatchGo R cfg now tr rest log k).attempted,
         (sendBatchGo R cfg now tr rest log k).okSent⟩ := by
        simp [sendBatchGo, hsent]
      rw [heq]
      exact auditOk_keep p p rest _ _ _
        (fun _ => hinv p (List.mem_cons_self p rest) hsent) (ih log k hrest)
    · have hsent' : p.sent = false := Bool.eq_false_iff.mpr hsent
      by_cases hok : (send_outreach_message R log p.contact p.message false cfg
          (tr k) now).ok = true
      · have heq : sendBatchGo R cfg now tr (p :: rest) log k =
          ⟨{ p with
              contact := (send_outreach_message R log p.contact p.message false cfg
                (tr k) now).contact, sent := true, approved := true } ::
             (sendBatchGo R cfg now tr rest
               (send_outreach_message R log p.contact p.message false cfg
                 (tr k) now).log (k + 1)).queue,
           (sendBatchGo R cfg now tr rest
             (send_outreach_message R log p.contact p.message false cfg
               (tr k) now).log (k + 1)).log,
           p :: (sendBatchGo R cfg now tr rest
             (send_outreach_message R log p.contact p.message false cfg
               (tr k) now).log (k + 1)).attempted,
           { p with
              contact := (send_outreach_message R log p.contact p.message false cfg
                (tr k) now).contact, sent := true, approved := true } ::
             (sendBatchGo R cfg now tr rest
               (send_outreach_message R log p.contact p.message false cfg
                 (tr k) now).log (k + 1)).okSent⟩ := by
          simp [sendBatchGo, hsent', hok]
        rw [heq]
        exact auditOk_mark p _ rest _ _ _ rfl rfl (ih _ (k + 1) hrest)
      · have hok' : (send_outreach_message R log p.contact p.message false cfg
            (tr k) now).ok = false := Bool.eq_false_iff.mpr hok
        have heq : sendBatchGo R cfg now tr (p :: rest) log k =
          ⟨{ p with
              contact := (send_outreach_message R log p.contact p.message false cfg
                (tr k) now).contact } ::
             (sendBatchGo R cfg now tr rest
               (send_outreach_message R log p.contact p.message false cfg
                 (tr k) now).log (k + 1)).queue,
           (sendBatchGo R cfg now tr rest
             (send_outreach_message R log p.contact p.message false cfg
               (tr k) now).log (k + 1)).log,
           p :: (sendBatchGo R cfg now tr rest
             (send_outreach_message R log p.contact p.message false cfg
               (tr k) now).log (k + 1)).attempted,
           (sendBatchGo R cfg now tr rest
             (send_outreach_message R log p.contact p.message false cfg
               (tr k) now).log (k + 1)).okSent⟩ := by
          simp [sendBatchGo, hsent', hok']
        rw [heq]
        exact auditOk_keep p _ rest _ _ _
          (fun hcontra => absurd hcontra (by simp [hsent'])) (ih _ (k + 1) hrest)

theorem individualReviewGo_audit (R : OptOuts) (cfg : Bool) (now : Int)
    (tr : Nat → Option String) (dec : Nat → Decision) (queue : List Pending) :
    ∀ (log : List LogEntry) (k j : Nat),
      (∀ p ∈ queue, p.sent = true → p.approved = true) →
      auditOk queue (individualReviewGo R cfg now tr dec queue log k j) := by
  induction queue with
  | nil =>
    intro log k j _
    exact ⟨rfl, by simp [individualReviewGo], by simp [individualReviewGo]⟩
  | cons p rest ih =>
    intro log k j hinv
    have hrest : ∀ q ∈ rest, q.sent = true → q.approved = true :=
      fun q hq => hinv q (List.mem_cons_of_mem p hq)
    have hp := hinv p (List.mem_cons_self p rest)
    by_cases hg : (p.sent || p.approved) = true
    · simp only [individualReviewGo, hg, if_true]
      exact auditOk_keep p p rest _ _ _ hp (ih log k j hrest)
    · have hg' : (p.sent || p.approved) = false := Bool.eq_false_iff.mpr hg
      have hps : p.sent = false := (Bool.or_eq_false_iff.mp hg').1
      cases hdec : dec j with
      | dsend =>
        by_cases hok : (send_outreach_message R log p.contact p.message false cfg
            (tr k) now).ok = true
        · simp only [individualReviewGo, hg', hdec, hok, Bool.false_eq_true,
            if_false, if_true]
          exact auditOk_mark p _ rest _ _ _ rfl rfl (ih _ (k + 1) (j + 1) hrest)
        · have hok' : (send_outreach_message R log p.contact p.message false cfg
              (tr k) now).ok = false := Bool.eq_false_iff.mpr hok
          simp only [individualReviewGo, hg', hdec, hok', Bool.false_eq_true,
            if_false]
          exact auditOk_keep p _ rest _ _ _
            (fun hc => absurd hc (by simp [hps])) (ih _ (k + 1) (j + 1) hrest)
      | dedit m thenSend =>
        cases thenSend with
        | true =>
          by_cases hok : (send_outreach_message R log p.contact m false cfg
              (tr k) now).ok = true
          · simp only [individualReviewGo, hg', hdec, hok, Bool.false_eq_true,
              if_false, if_true]
            exact auditOk_mark p _ rest _ _ _ rfl rfl (ih _ (k + 1) (j + 1) hrest)
          · have hok' : (send_outreach_message R log p.contact m false cfg
                (tr k) now).ok = false := Bool.eq_false_iff.mpr hok
            simp only [individualReviewGo, hg', hdec, hok', Bool.false_eq_true,
              if_false]
            exact auditOk_keep p _ rest _ _ _
              (fun hc => absurd hc (by simp [hps])) (ih _ (k + 1) (j + 1) hrest)
        | false =>
          simp only [individualReviewGo, hg', hdec, Bool.false_eq_true, if_false]
          exact auditOk_keep p _ rest _ _ _
            (fun hc => absurd hc (by simp [hps])) (ih _ k (j + 1) hrest)
      | dskip =>
        simp only [individualReviewGo, hg', hdec, Bool.false_eq_true, if_false]
        exact auditOk_keep p p rest _ _ _ hp (ih _ k (j + 1) hrest)
      | dquit =>
        simp only [individualReviewGo, hg', hdec, Bool.false_eq_true, if_false]
        refine ⟨rfl, ?_, hinv⟩
        intro q hq
        exact absurd hq (List.not_mem_nil q)

theorem sendAllGo_partition (R : OptOuts) (cfg : Bool) (now : Int)
    (tr : Nat → Option String) (queue : List Pending) :
    ∀ (log : List LogEntry) (k : Nat),
      (sendAllGo R cfg now tr queue log k).queue.length +
        (sendAllGo R cfg now tr queue log k).okSent.length = queue.length ∧
      ∀ p ∈ (sendAllGo R cfg now tr queue log k).queue, p ∈ queue := by
  induction queue with
  | nil =>
    intro log k
    exact ⟨rfl, fun p hp => absurd hp (List.not_mem_nil p)⟩
  | cons p rest ih =>
    intro log k
    by_cases hok : (send_outreach_message R log p.contact p.message false cfg
        (tr k) now).ok = true
    · simp only [sendAllGo, hok, if_true]
      obtain ⟨h1, h2⟩ := ih (send_outreach_message R log p.contact p.message
        false cfg (tr k) now).log (k + 1)
      refine ⟨?_, ?_⟩
      · simp only [List.length_cons]
        omega
      · intro q hq
        exact List.mem_cons_of_mem p (h2 q hq)
    · have hok' : (send_outreach_message R log p.contact p.message false cfg
          (tr k) now).ok = false := Bool.eq_false_iff.mpr hok
      simp only [sendAllGo, hok', Bool.false_eq_true, if_false]
      obtain ⟨h1, h2⟩ := ih (send_outreach_message R log p.contact p.message
        false cfg (tr k) now).log (k + 1)
      refine ⟨?_, ?_⟩
      · simp only [List.length_cons]
        omega
      · intro q hq
        rcases List.mem_cons.mp hq with rfl | hq
        · exact List.mem_cons_self q rest
        · exact List.mem_cons_of_mem p (h2 q hq)

/-- Concrete fixture: a freshly staged queue entry. -/
def p0 : Pending := { contact := cAda, message := mHello, timestamp := 0 }

/-- Concrete fixture: an already dispatched queue entry. -/
def pSent : Pending :=
  { contact := cAda, message := mHello, timestamp := 0,
    approved := true, sent := true }

/-- Counterexample to C3: `send_all_pending` deletes a successfully
sent entry from the queue instead of keeping it marked — the queue
comes back empty even though the log records the delivery. -/
theorem sent_entry_deleted_counterexample :
    (send_all_pending Rempty true 5 (fun _ => none) [p0] []).okSent = [p0] ∧
    ((send_all_pending Rempty true 5 (fun _ => none) [p0] []).log.map
      (fun e => e.status)) = [some "sent"] ∧
    (send_all_pending Rempty true 5 (fun _ => none) [p0] []).queue = [] := by
  decide

/-- C3 as amended: after `send_batch_messages` or
`individual_review_session` every successfully sent entry is still in
the queue with `sent = true, approved = true`, no entry is deleted,
and `sent` implies `approved` throughout; `send_all_pending` instead
removes each successfully sent entry from the queue (exactly the
successful ones are gone, and the surviving entries are unmodified
members of the original queue). -/
theorem dispatch_audit (R : OptOuts) (cfg : Bool) (now : Int)
    (tr : Nat → Option String) (dec : Nat → Decision)
    (queue : List Pending) (log : List LogEntry)
    (hinv : ∀ p ∈ queue, p.sent = true → p.approved = true) :
    auditOk queue (send_batch_messages R cfg now tr queue log) ∧
    auditOk queue (individual_review_session R cfg now tr dec queue log) ∧
    ((send_all_pending R cfg now tr queue log).queue.length +
       (send_all_pending R cfg now tr queue log).okSent.length = queue.length ∧
     ∀ p ∈ (send_all_pending R cfg now tr queue log).queue, p ∈ queue) :=
  ⟨sendBatchGo_audit R cfg now tr queue log 0 hinv,
   individualReviewGo_audit R cfg now tr dec queue log 0 0 hinv,
   sendAllGo_partition R cfg now tr queue log 0⟩

/-- Witness for the amended C3 on a one-entry queue. -/
theorem dispatch_audit_witness :
    auditOk [p0] (send_batch_messages Rempty true 5 (fun _ => none) [p0] []) ∧
    auditOk [p0] (individual_review_session Rempty true 5 (fun _ => none)
      (fun _ => Decision.dsend) [p0] []) ∧
    ((send_all_pending Rempty true 5 (fun _ => none) [p0] []).queue.length +
       (send_all_pending Rempty true 5 (fun _ => none) [p0] []).okSent.length =
         [p0].length ∧
     ∀ p ∈ (send_all_pending Rempty true 5 (fun _ => none) [p0] []).queue,
       p ∈ [p0]) :=
  dispatch_audit Rempty true 5 (fun _ => none) (fun _ => Decision.dsend)
    [p0] [] (by decide)

/-- C4 (code bug): over a persisted queue whose single entry is
already marked `sent = true`, `send_batch_messages` and
`individual_review_session` attempt nothing, but `send_all_pending`
invokes the dispatcher for it again and the message is delivered a
second time (a fresh `status='sent'` log entry). -/
theorem send_all_resends_sent_entry :
    pSent.sent = true ∧
    (send_batch_messages Rempty true 5 (fun _ => none) [pSent] []).attempted
      = [] ∧
    (individual_review_session Rempty true 5 (fun _ => none)
      (fun _ => Decision.dsend) [pSent] []).attempted = [] ∧
    (send_all_pending Rempty true 5 (fun _ => none) [pSent] []).attempted
      = [pSent] ∧
    ((send_all_pending Rempty true 5 (fun _ => none) [pSent] []).log.map
      (fun e => e.status)) = [some "sent"] := by
  decide
